import Mathlib

/-!
Verification of the core data model and subscription runtime of an
EventStoreDB TCP client (`src/types.rs`), as a shallow embedding.

Conventions of the embedding:
- Rust `Bytes` / byte buffers become `List Byte` with `Byte := Fin 256`.
- Rust `i64` becomes `Int` (the claims checked here depend only on the
  order and equality structure, never on wrap-around).
- `Uuid` (always 16 octets) becomes `Fin 16 → Byte`, with `as_bytes`
  returning its 16-byte serialization.
- `protobuf::Chars` becomes `String`.
- Fallible or panicking code paths return `Option` (`none` models a
  panic, such as `Option::expect`, or an unreadable buffer).
-/

namespace ESDB

/-- One octet, as stored in a `Bytes` buffer. -/
abbrev Byte := Fin 256

/-- A 128-bit UUID, as a function from byte index to octet.
`uuid::Uuid` is always exactly 16 octets long. -/
abbrev Uuid : Type := Fin 16 → Byte

/-- Serialization of a UUID (`Uuid::as_bytes` in the source): its 16 octets. -/
def Uuid.as_bytes (u : Uuid) : List Byte :=
  List.ofFn u

/-- `Credentials` from `src/types.rs`: paired login/password byte strings. -/
structure Credentials where
  login : List Byte
  password : List Byte
deriving DecidableEq

/-- `Credentials::write_to_bytes_mut` from `src/types.rs`: appends
`login.len() as u8`, the login bytes, `password.len() as u8`, the password
bytes.  The `as u8` cast truncates the length modulo 256 and can never
fail. -/
def Credentials.write_to_bytes_mut (c : Credentials) : List Byte :=
  ⟨c.login.length % 256, by omega⟩ ::
    (c.login ++ ⟨c.password.length % 256, by omega⟩ :: c.password)

/-- `Credentials::parse_from_buf` from `src/types.rs`: reads a one-byte
login length, up to that many login octets (`Read::take` + `read_to_end`
reads at most the limit and never errors on a short buffer), then a
one-byte password length and up to that many password octets.  `none`
models the panic of `Buf::get_u8` on an exhausted buffer. -/
def Credentials.parse_from_buf (buf : List Byte) : Option Credentials :=
  match buf with
  | [] => none
  | loginLen :: rest =>
    match rest.drop loginLen.val with
    | [] => none
    | passwLen :: rest3 =>
      some { login := rest.take loginLen.val,
             password := rest3.take passwLen.val }

/-- `ExpectedVersion` from `src/types.rs`. -/
inductive ExpectedVersion where
  | Any
  | StreamExists
  | NoStream
  | Exact (n : Int)
deriving DecidableEq

/-- `ExpectedVersion::to_i64` from `src/types.rs`. -/
def ExpectedVersion.to_i64 : ExpectedVersion → Int
  | .Any => -2
  | .StreamExists => -4
  | .NoStream => -1
  | .Exact n => n

/-- `ExpectedVersion::from_i64` from `src/types.rs`. -/
def ExpectedVersion.from_i64 (ver : Int) : ExpectedVersion :=
  if ver = -2 then .Any
  else if ver = -4 then .StreamExists
  else if ver = -1 then .NoStream
  else .Exact ver

/-- Auxiliary predicate used only to state the amended round-trip claim:
`Exact n` where `n` collides with one of the wire sentinels -2, -4, -1. -/
def ExpectedVersion.is_sentinel_exact : ExpectedVersion → Bool
  | .Exact n => n == -2 || n == -4 || n == -1
  | _ => false

/-- `Position` from `src/types.rs`. -/
structure Position where
  commit : Int
  prepare : Int
deriving DecidableEq

/-- `Position::start` from `src/types.rs`. -/
def Position.start : Position := { commit := 0, prepare := 0 }

/-- `Position::end` from `src/types.rs` (named `end_` because `end` is a
keyword here). -/
def Position.end_ : Position := { commit := -1, prepare := -1 }

/-- Rust's `i64::cmp`: the standard comparison of signed integers. -/
def icmp (a b : Int) : Ordering :=
  if a < b then .lt else if a = b then .eq else .gt

/-- `Ord::cmp for Position` from `src/types.rs`:
`self.commit.cmp(&other.commit).then(self.prepare.cmp(&other.prepare))`. -/
def Position.cmp (p q : Position) : Ordering :=
  (icmp p.commit q.commit).then (icmp p.prepare q.prepare)

/-- Rust's derived `<=` on `Position`: `cmp` did not return `Greater`. -/
def Position.le (p q : Position) : Bool :=
  match Position.cmp p q with
  | .gt => false
  | _ => true

/-- `RecordedEvent` from `src/types.rs`. -/
structure RecordedEvent where
  event_stream_id : String
  event_id : Uuid
  event_number : Int
  event_type : String
  data : List Byte
  metadata : List Byte
  is_json : Bool
  created : Option Int
  created_epoch : Option Int

/-- `ResolvedEvent` from `src/types.rs`. -/
structure ResolvedEvent where
  event : Option RecordedEvent
  link : Option RecordedEvent
  position : Option Position

/-- `ReadDirection` from `src/types.rs`. -/
inductive ReadDirection where
  | Forward
  | Backward

/-- `LocatedEvents` from `src/types.rs`. -/
inductive LocatedEvents (α : Type) where
  | EndOfStream
  | Events (events : List ResolvedEvent) (next : Option α)

/-- `LocatedEvents::is_end_of_stream` from `src/types.rs`: `true` on
`EndOfStream`, and `next.is_some()` on `Events`. -/
def LocatedEvents.is_end_of_stream {α : Type} : LocatedEvents α → Bool
  | .EndOfStream => true
  | .Events _ next => next.isSome

/-- `StreamSlice` from `src/types.rs`. -/
structure StreamSlice where
  _from : Int
  _direction : ReadDirection
  _events : List ResolvedEvent
  _next_num_opt : Option Int

/-- `StreamSlice::new` from `src/types.rs`. -/
def StreamSlice.new (direction : ReadDirection) (from_ : Int)
    (events : List ResolvedEvent) (next_num_opt : Option Int) : StreamSlice :=
  { _from := from_, _direction := direction,
    _events := events, _next_num_opt := next_num_opt }

/-- `Slice::events for StreamSlice` from `src/types.rs`. -/
def StreamSlice.events (s : StreamSlice) : LocatedEvents Int :=
  if s._events.isEmpty then .EndOfStream
  else
    match s._next_num_opt with
    | none => .Events s._events none
    | some next_num => .Events s._events (some next_num)

/-- `NakAction` from `src/types.rs`. -/
inductive NakAction where
  | Unknown
  | Park
  | Retry
  | Skip
  | Stop
deriving DecidableEq

/-- Modelled from the spec: the generated protobuf enum
`messages::PersistentSubscriptionNakEvents_NakAction` is not under `src/`;
its five values are listed in the spec glossary ("Nak action"). -/
inductive InternalNakAction where
  | Unknown
  | Park
  | Retry
  | Skip
  | Stop
deriving DecidableEq

/-- `NakAction::to_internal_nak_action` from `src/types.rs`. -/
def NakAction.to_internal_nak_action : NakAction → InternalNakAction
  | .Unknown => .Unknown
  | .Retry => .Retry
  | .Skip => .Skip
  | .Park => .Park
  | .Stop => .Stop

/-- Modelled from the spec: `internal::command::Cmd` is not under `src/`;
the spec names the command tags the core needs.  Only the tags used by the
subscription runtime under verification are embedded. -/
inductive Cmd where
  | PersistentSubscriptionAckEvents
  | PersistentSubscriptionNakEvents
  | UnsubscribeFromStream
deriving DecidableEq

/-- Modelled from the spec: the payload of a package, kept as the message
it serializes rather than opaque octets (the generated protobuf encoders
are not under `src/`; serialization per message type is injective, so the
message itself is a faithful stand-in).  The fields are the ones the
subscription runtime sets: `subscription_id`, `processed_event_ids`, and
for a nak message additionally `message` and `action`. -/
inductive PkgPayload where
  | empty
  | ackEvents (subscription_id : String) (processed_event_ids : List (List Byte))
  | nakEvents (subscription_id : String) (processed_event_ids : List (List Byte))
      (message : String) (action : InternalNakAction)
deriving DecidableEq

/-- Whether a payload is a `PersistentSubscriptionAckEvents` message. -/
def PkgPayload.isAckEvents : PkgPayload → Bool
  | .ackEvents _ _ => true
  | _ => false

/-- Modelled from the spec: `internal::package::Pkg` is not under `src/`.
A package carries a command tag, a correlation id, and a payload.
`Pkg::from_message` draws a fresh random correlation id, modelled here as
`none`; `Pkg::new(cmd, id)` carries the given id and an empty payload. -/
structure Pkg where
  cmd : Cmd
  correlation : Option Uuid
  payload : PkgPayload
deriving DecidableEq

/-- Modelled from the spec: `Pkg::new(cmd, correlation)` builds a package
with the given command tag and correlation id and an empty payload. -/
def Pkg.new (cmd : Cmd) (correlation : Uuid) : Pkg :=
  { cmd := cmd, correlation := some correlation, payload := PkgPayload.empty }

/-- `SubEvent` from `src/types.rs`.  The `oneshot::Sender<()>` inside
`HasBeenConfirmed` is modelled as an abstract token (`Nat`); completing the
sender is modelled by the token appearing in the `released` output of a
step. -/
inductive SubEvent where
  | Confirmed (id : Uuid) (last_commit_position : Int) (last_event_number : Int)
      (persistent_id : Option String)
  | EventAppeared (event : ResolvedEvent) (retry_count : Nat)
  | HasBeenConfirmed (req : Nat)
  | Dropped

/-- `OnEventAppeared` from `src/types.rs`: the consumer's decision. -/
inductive OnEventAppeared where
  | Continue
  | Drop
deriving DecidableEq

/-- `NakedEvents` from `src/types.rs`: one `push_nak_with_message` group. -/
structure NakedEvents where
  ids : List Uuid
  action : NakAction
  message : String

/-- The observable outcome of one `SubscriptionConsumer::when_event_appeared`
invocation: the decision returned, the acks and naks the consumer pushed
into its `SubscriptionEnv` during the call, and the consumer's next state. -/
structure ConsumerReply (σ : Type) where
  decision : OnEventAppeared
  acks : List Uuid
  naks : List NakedEvents
  consumer : σ

/-- The trait `SubscriptionConsumer` from `src/types.rs`, reified as a
record of pure functions over a consumer state `σ`.  `when_event_appeared`
receives the retry count its `SubscriptionEnv` would report
(`PersistentSubscriptionEnv` reports the delivery's retry count,
`NoopSubscriptionEnv` reports 0) and returns everything it pushed. -/
structure Consumer (σ : Type) where
  when_confirmed : σ → Uuid → Int → Int → σ
  when_event_appeared : σ → Nat → ResolvedEvent → ConsumerReply σ
  when_dropped : σ → σ

/-- `State` from `src/types.rs`: the subscription loop state. -/
structure State (σ : Type) where
  consumer : σ
  confirmation_id : Option Uuid
  persistent_id : Option String
  confirmation_requests : List Nat
  buffer : List Byte

/-- `State::new` from `src/types.rs`. -/
def State.new {σ : Type} (consumer : σ) : State σ :=
  { consumer := consumer, confirmation_id := none, persistent_id := none,
    confirmation_requests := [], buffer := [] }

/-- `OnEvent` from `src/types.rs`: whether the subscription loop continues. -/
inductive OnEvent where
  | Continue
  | Stop
deriving DecidableEq

/-- The body of the per-uuid loop in `on_event` (`src/types.rs`): reserve,
`put_slice(id.as_bytes())`, then `buffer.take().freeze()` — the buffer
contents plus the 16 uuid octets are frozen off and the buffer is left
empty. -/
def ackStep (acc : List Byte × List (List Byte)) (id : Uuid) :
    List Byte × List (List Byte) :=
  ([], acc.2 ++ [acc.1 ++ id.as_bytes])

/-- The uuid-serialization loop of `on_event` over a list of event ids,
threading the shared `state.buffer`. -/
def serializeIds (buf : List Byte) (ids : List Uuid) :
    List Byte × List (List Byte) :=
  ids.foldl ackStep (buf, [])

/-- The body of the nak loop in `on_event` (`src/types.rs`): build one
`PersistentSubscriptionNakEvents` message per `NakedEvents` group and wrap
it in a package — whose command tag the source sets to
`Cmd::PersistentSubscriptionAckEvents`. -/
def nakStep (sub_id : String) (acc : List Byte × List Pkg)
    (naked : NakedEvents) : List Byte × List Pkg :=
  let ser := serializeIds acc.1 naked.ids
  let pkg : Pkg := { cmd := Cmd.PersistentSubscriptionAckEvents,
                     correlation := none,
                     payload := PkgPayload.nakEvents sub_id ser.2
                       naked.message naked.action.to_internal_nak_action }
  (ser.1, acc.2 ++ [pkg])

/-- The package `on_event` builds for one `NakedEvents` group when the
shared buffer is empty: the nak message with the group's 16-byte event
ids, message, and action — wrapped, as in the source, in a package tagged
with the Ack command. -/
def nakGroupPkg (sub_id : String) (naked : NakedEvents) : Pkg :=
  { cmd := Cmd.PersistentSubscriptionAckEvents, correlation := none,
    payload := PkgPayload.nakEvents sub_id (naked.ids.map Uuid.as_bytes)
      naked.message naked.action.to_internal_nak_action }

/-- The result of one `on_event` step: the next state, the packages sent to
the driver (in order), the confirmation-wait tokens completed during the
step, and the loop decision. -/
structure OnEventResult (σ : Type) where
  state : State σ
  pkgs : List Pkg
  released : List Nat
  decision : OnEvent

/-- The consumer invocation `on_event` performs for an `EventAppeared`:
with a persistent id the env reports the delivery's retry count, otherwise
the noop env reports 0 (and discards pushes, which `on_event` then never
reads). -/
def consumerReply {σ : Type} (con : Consumer σ) (s : State σ)
    (event : ResolvedEvent) (retry_count : Nat) : ConsumerReply σ :=
  match s.persistent_id with
  | some _ => con.when_event_appeared s.consumer retry_count event
  | none => con.when_event_appeared s.consumer 0 event

/-- `on_event` from `src/types.rs`, as a pure step function.  `none`
models the panic of
`state.confirmation_id.expect("impossible situation when dropping subscription")`.
Package construction mirrors the source: the ack message is sent as one
package when the ack list is non-empty; each `NakedEvents` group becomes
one package (tagged, as in the source, with the Ack command). -/
def on_event {σ : Type} (con : Consumer σ) (s : State σ) (event : SubEvent) :
    Option (OnEventResult σ) :=
  match event with
  | .Confirmed id lcp len pid =>
      some { state := { consumer := con.when_confirmed s.consumer id lcp len,
                        confirmation_id := some id,
                        persistent_id := pid,
                        confirmation_requests := [],
                        buffer := s.buffer },
             pkgs := [], released := s.confirmation_requests,
             decision := .Continue }
  | .EventAppeared ev rc =>
      match s.persistent_id with
      | some sub_id =>
          let reply := con.when_event_appeared s.consumer rc ev
          let ackRes := serializeIds s.buffer reply.acks
          let ackPkgs : List Pkg :=
            if reply.acks.isEmpty then [] else
              [{ cmd := Cmd.PersistentSubscriptionAckEvents,
                 correlation := none,
                 payload := PkgPayload.ackEvents sub_id ackRes.2 }]
          let nakRes := reply.naks.foldl (nakStep sub_id) (ackRes.1, [])
          let s2 : State σ := { s with consumer := reply.consumer,
                                       buffer := nakRes.1 }
          let pkgs := ackPkgs ++ nakRes.2
          match reply.decision with
          | .Continue =>
              some { state := s2, pkgs := pkgs, released := [],
                     decision := .Continue }
          | .Drop =>
              match s.confirmation_id with
              | none => none
              | some cid =>
                  some { state := s2,
                         pkgs := pkgs ++ [Pkg.new Cmd.UnsubscribeFromStream cid],
                         released := [], decision := .Stop }
      | none =>
          let reply := con.when_event_appeared s.consumer 0 ev
          let s2 : State σ := { s with consumer := reply.consumer }
          match reply.decision with
          | .Continue =>
              some { state := s2, pkgs := [], released := [],
                     decision := .Continue }
          | .Drop =>
              match s.confirmation_id with
              | none => none
              | some cid =>
                  some { state := s2,
                         pkgs := [Pkg.new Cmd.UnsubscribeFromStream cid],
                         released := [], decision := .Stop }
  | .Dropped =>
      some { state := { s with consumer := con.when_dropped s.consumer,
                               confirmation_requests := [] },
             pkgs := [], released := s.confirmation_requests,
             decision := .Continue }
  | .HasBeenConfirmed req =>
      match s.confirmation_id with
      | some _ =>
          some { state := s, pkgs := [], released := [req],
                 decision := .Continue }
      | none =>
          some { state := { s with confirmation_requests :=
                   s.confirmation_requests ++ [req] },
                 pkgs := [], released := [], decision := .Continue }

/-- `Subscription::consume` from `src/types.rs`, over the list of events
the receiver yields: process events in order with `on_event`, stopping when
a step decides `Stop` (later events are never delivered).  Returns the final
state, all packages sent, and all confirmation-wait tokens completed;
`none` models a panic inside a step. -/
def consume {σ : Type} (con : Consumer σ) (s : State σ) :
    List SubEvent → Option (State σ × List Pkg × List Nat)
  | [] => some (s, [], [])
  | e :: rest =>
    match on_event con s e with
    | none => none
    | some r =>
      match r.decision with
      | .Stop => some (r.state, r.pkgs, r.released)
      | .Continue =>
        match consume con r.state rest with
        | none => none
        | some (s2, pkgs, rel) =>
            some (s2, r.pkgs ++ pkgs, r.released ++ rel)

/-- Auxiliary counter used only to state the confirmation-wait claim: how
many `HasBeenConfirmed` events in a trace carry the token `tok`. -/
def countRequests (tok : Nat) (evs : List SubEvent) : Nat :=
  evs.countP fun e =>
    match e with
    | .HasBeenConfirmed t => t == tok
    | _ => false

/-- A concrete UUID (all octets 1) for concrete evaluations. -/
def u1 : Uuid := fun _ => (1 : Byte)

/-- A concrete resolved event for concrete evaluations. -/
def ev0 : ResolvedEvent := { event := none, link := none, position := none }

/-- A concrete consumer that acks `u1` and continues. -/
def conAck : Consumer Unit :=
  { when_confirmed := fun s _ _ _ => s,
    when_event_appeared := fun _ _ _ =>
      { decision := .Continue, acks := [u1], naks := [], consumer := () },
    when_dropped := fun s => s }

/-- A concrete consumer that naks `u1` with action `Park` and message
`"bad"`, then continues. -/
def conNak : Consumer Unit :=
  { when_confirmed := fun s _ _ _ => s,
    when_event_appeared := fun _ _ _ =>
      { decision := .Continue, acks := [],
        naks := [{ ids := [u1], action := NakAction.Park, message := "bad" }],
        consumer := () },
    when_dropped := fun s => s }

/-- A concrete consumer that answers every event with `Drop`. -/
def conDrop : Consumer Unit :=
  { when_confirmed := fun s _ _ _ => s,
    when_event_appeared := fun _ _ _ =>
      { decision := .Drop, acks := [], naks := [], consumer := () },
    when_dropped := fun s => s }

/-- A concrete confirmed persistent-subscription state (group `"g"`). -/
def sPers : State Unit :=
  { consumer := (), confirmation_id := some u1, persistent_id := some "g",
    confirmation_requests := [], buffer := [] }

/-- A concrete confirmed non-persistent subscription state. -/
def sConf : State Unit :=
  { consumer := (), confirmation_id := some u1, persistent_id := none,
    confirmation_requests := [], buffer := [] }

/-- Concrete credentials whose login is 256 octets long. -/
def c256 : Credentials :=
  { login := List.replicate 256 (0 : Byte), password := [] }

/-- Concrete short credentials. -/
def c1b : Credentials := { login := [(7 : Byte)], password := [(9 : Byte)] }

/-- Claim C3 (counterexample): the round-trip `from_i64 (to_i64 v) = v`
fails at `v = Exact (-2)`, whose wire encoding collides with the `Any`
sentinel and decodes back to `Any`. -/
theorem expected_version_sentinel_no_roundtrip :
    ExpectedVersion.from_i64
        (ExpectedVersion.to_i64 (ExpectedVersion.Exact (-2)))
      ≠ ExpectedVersion.Exact (-2) := by
  decide

/-- Claim C3 (amended): `from_i64 (to_i64 v) = v` for every
`ExpectedVersion` except `Exact n` with `n` equal to one of the wire
sentinels -2, -4, -1, which decode to the corresponding tagged variant
instead. -/
theorem expected_version_roundtrip_nonsentinel (v : ExpectedVersion)
    (h : v.is_sentinel_exact = false) :
    ExpectedVersion.from_i64 v.to_i64 = v := by
  cases v with
  | Any => decide
  | StreamExists => decide
  | NoStream => decide
  | Exact n =>
    simp only [ExpectedVersion.is_sentinel_exact, Bool.or_eq_false_iff,
      beq_eq_false_iff_ne, ne_eq] at h
    obtain ⟨⟨h1, h2⟩, h3⟩ := h
    simp only [ExpectedVersion.to_i64, ExpectedVersion.from_i64,
      if_neg h1, if_neg h2, if_neg h3]

/-- Claim C3 (witness for the amended theorem): the round-trip holds at
the non-sentinel value `Exact 5`. -/
theorem expected_version_roundtrip_nonsentinel_witness :
    (ExpectedVersion.Exact 5).is_sentinel_exact = false ∧
    ExpectedVersion.from_i64 (ExpectedVersion.Exact 5).to_i64
      = ExpectedVersion.Exact 5 :=
  ⟨by decide,
   expected_version_roundtrip_nonsentinel (ExpectedVersion.Exact 5) (by decide)⟩

/-- Claim C4: the derived ordering on `Position` is total and
lexicographic by commit then prepare — `p ≤ q` iff
`p.commit < q.commit ∨ (p.commit = q.commit ∧ p.prepare ≤ q.prepare)` —
it is antisymmetric and transitive, `start = (0,0)`, `end = (-1,-1)`, and
`start ≤ end` is false. -/
theorem position_order_lex_total :
    (∀ p q : Position, Position.le p q = true ↔
       (p.commit < q.commit ∨ (p.commit = q.commit ∧ p.prepare ≤ q.prepare))) ∧
    (∀ p q : Position, Position.le p q = true ∨ Position.le q p = true) ∧
    (∀ p q : Position,
       Position.le p q = true → Position.le q p = true → p = q) ∧
    (∀ p q r : Position, Position.le p q = true → Position.le q r = true →
       Position.le p r = true) ∧
    Position.start = { commit := 0, prepare := 0 } ∧
    Position.end_ = { commit := -1, prepare := -1 } ∧
    Position.le Position.start Position.end_ = false := by
  have hle : ∀ p q : Position, Position.le p q = true ↔
      (p.commit < q.commit ∨ (p.commit = q.commit ∧ p.prepare ≤ q.prepare)) := by
    intro p q
    simp only [Position.le, Position.cmp, icmp]
    split_ifs <;> simp [Ordering.then] <;> omega
  refine ⟨hle, ?_, ?_, ?_, rfl, rfl, by decide⟩
  · intro p q
    simp only [hle]
    omega
  · intro p q h1 h2
    replace h1 := (hle p q).1 h1
    replace h2 := (hle q p).1 h2
    obtain ⟨a, b⟩ := p
    obtain ⟨c, d⟩ := q
    simp only [Position.mk.injEq]
    dsimp only at h1 h2
    omega
  · intro p q r h1 h2
    replace h1 := (hle p q).1 h1
    replace h2 := (hle q r).1 h2
    rw [hle]
    omega

/-- Claim C4 (witness): concrete instances of the lexicographic
characterization and transitivity. -/
theorem position_order_lex_total_witness :
    Position.le { commit := 1, prepare := 2 } { commit := 1, prepare := 5 }
      = true ∧
    Position.le { commit := 1, prepare := 5 } { commit := 3, prepare := 0 }
      = true ∧
    Position.le { commit := 1, prepare := 2 } { commit := 3, prepare := 0 }
      = true :=
  ⟨by decide, by decide,
   position_order_lex_total.2.2.2.1 { commit := 1, prepare := 2 }
     { commit := 1, prepare := 5 } { commit := 3, prepare := 0 }
     (by decide) (by decide)⟩

set_option maxRecDepth 10000 in
/-- Claim C5 (counterexample): serializing credentials with a 256-octet
login does not fail — `write_to_bytes_mut` has no error path — it
produces 258 octets whose login-length byte is `0 = 256 mod 256`. -/
theorem credentials_oversize_serializes_anyway :
    255 < c256.login.length ∧
    (Credentials.write_to_bytes_mut c256).length = 258 ∧
    (Credentials.write_to_bytes_mut c256).head? = some (0 : Byte) := by
  decide

/-- Any credentials value a parse can return has login and password of at
most 255 octets, because each is bounded by a one-byte length field. -/
theorem parse_from_buf_bounds (buf : List Byte) (c : Credentials)
    (h : Credentials.parse_from_buf buf = some c) :
    c.login.length ≤ 255 ∧ c.password.length ≤ 255 := by
  cases buf with
  | nil => exact absurd h (by simp [Credentials.parse_from_buf])
  | cons loginLen rest =>
    cases hd : rest.drop loginLen.val with
    | nil =>
      rw [Credentials.parse_from_buf, hd] at h
      exact absurd h (by simp)
    | cons passwLen rest3 =>
      rw [Credentials.parse_from_buf, hd] at h
      have hc := Option.some.inj h
      subst hc
      have h1 := loginLen.isLt
      have h2 := passwLen.isLt
      constructor <;> simp [List.length_take] <;> omega

/-- Claim C5 (amended): serializing over-length credentials never reports
an error; the length byte is written modulo 256, the serialization
produces output, and that output can no longer be parsed back to the
original credentials. -/
theorem credentials_oversize_no_roundtrip (c : Credentials)
    (h : 255 < c.login.length ∨ 255 < c.password.length) :
    Credentials.write_to_bytes_mut c ≠ [] ∧
    (Credentials.write_to_bytes_mut c).head?.map Fin.val
      = some (c.login.length % 256) ∧
    Credentials.parse_from_buf (Credentials.write_to_bytes_mut c)
      ≠ some c := by
  refine ⟨by simp [Credentials.write_to_bytes_mut],
          by simp [Credentials.write_to_bytes_mut], ?_⟩
  intro hc
  obtain ⟨h1, h2⟩ := parse_from_buf_bounds _ _ hc
  omega

set_option maxRecDepth 10000 in
/-- Claim C5 (witness for the amended theorem): evaluated on credentials
with a 256-octet login. -/
theorem credentials_oversize_no_roundtrip_witness :
    (255 < c256.login.length ∨ 255 < c256.password.length) ∧
    (Credentials.write_to_bytes_mut c256 ≠ [] ∧
     (Credentials.write_to_bytes_mut c256).head?.map Fin.val
       = some (c256.login.length % 256) ∧
     Credentials.parse_from_buf (Credentials.write_to_bytes_mut c256)
       ≠ some c256) :=
  ⟨by decide, credentials_oversize_no_roundtrip c256 (by decide)⟩

/-- Claim C6: for credentials whose login and password are each at most
255 octets, parsing the serialized bytes returns the same credentials. -/
theorem credentials_roundtrip (c : Credentials)
    (hl : c.login.length ≤ 255) (hp : c.password.length ≤ 255) :
    Credentials.parse_from_buf (Credentials.write_to_bytes_mut c)
      = some c := by
  obtain ⟨login, password⟩ := c
  dsimp only at hl hp
  have e1 : login.length % 256 = login.length := Nat.mod_eq_of_lt (by omega)
  have e2 : password.length % 256 = password.length :=
    Nat.mod_eq_of_lt (by omega)
  simp [Credentials.write_to_bytes_mut, Credentials.parse_from_buf,
    e1, e2, List.drop_left, List.take_left, List.take_length]

/-- Claim C6 (witness): the round-trip evaluated on one-octet credentials. -/
theorem credentials_roundtrip_witness :
    c1b.login.length ≤ 255 ∧ c1b.password.length ≤ 255 ∧
    Credentials.parse_from_buf (Credentials.write_to_bytes_mut c1b)
      = some c1b :=
  ⟨by decide, by decide, credentials_roundtrip c1b (by decide) (by decide)⟩

/-- Claim C10: `is_end_of_stream` is `true` on `EndOfStream` and equals
`next.isSome` on `Events`; hence a stream slice built from a non-empty
event vector with a known next event number is classified end-of-stream,
and one with no next number is not. -/
theorem located_events_end_of_stream :
    (∀ (α : Type) (evs : List ResolvedEvent) (next : Option α),
        (LocatedEvents.EndOfStream : LocatedEvents α).is_end_of_stream
          = true ∧
        (LocatedEvents.Events evs next).is_end_of_stream = next.isSome) ∧
    (∀ (dir : ReadDirection) (f : Int) (evs : List ResolvedEvent) (n : Int),
        evs ≠ [] →
        (StreamSlice.new dir f evs (some n)).events.is_end_of_stream
          = true) ∧
    (∀ (dir : ReadDirection) (f : Int) (evs : List ResolvedEvent),
        evs ≠ [] →
        (StreamSlice.new dir f evs none).events.is_end_of_stream
          = false) := by
  refine ⟨fun α evs next => ⟨rfl, rfl⟩, ?_, ?_⟩
  · intro dir f evs n h
    cases evs with
    | nil => exact absurd rfl h
    | cons e t =>
      simp [StreamSlice.new, StreamSlice.events,
        LocatedEvents.is_end_of_stream]
  · intro dir f evs h
    cases evs with
    | nil => exact absurd rfl h
    | cons e t =>
      simp [StreamSlice.new, StreamSlice.events,
        LocatedEvents.is_end_of_stream]

/-- Folding the uuid-serialization step from an empty buffer appends one
16-byte entry per uuid and leaves the buffer empty. -/
theorem foldl_ackStep_nil (ids : List Uuid) :
    ∀ acc : List (List Byte),
      ids.foldl ackStep ([], acc) = ([], acc ++ ids.map Uuid.as_bytes) := by
  induction ids with
  | nil => intro acc; simp
  | cons id t ih =>
    intro acc
    simp only [List.foldl_cons, ackStep, List.nil_append]
    rw [ih]
    simp

/-- `serializeIds` from an empty buffer yields the 16-byte serializations
of the ids, in order, and an empty buffer. -/
theorem serializeIds_nil (ids : List Uuid) :
    serializeIds [] ids = ([], ids.map Uuid.as_bytes) := by
  simpa [serializeIds] using foldl_ackStep_nil ids []

/-- Folding the nak-package step from an empty buffer emits one
`nakGroupPkg` per `NakedEvents` group and leaves the buffer empty. -/
theorem foldl_nakStep_nil (sid : String) (naks : List NakedEvents) :
    ∀ acc : List Pkg,
      naks.foldl (nakStep sid) ([], acc)
        = ([], acc ++ naks.map (nakGroupPkg sid)) := by
  induction naks with
  | nil => intro acc; simp
  | cons nk t ih =>
    intro acc
    simp only [List.foldl_cons, nakStep, serializeIds_nil]
    rw [ih]
    simp [nakGroupPkg]

/-- Claim C10 (witness): evaluated on a one-event slice with and without
a next event number. -/
theorem located_events_end_of_stream_witness :
    ([ev0] ≠ ([] : List ResolvedEvent)) ∧
    (StreamSlice.new ReadDirection.Forward 0 [ev0]
      (some 5)).events.is_end_of_stream = true ∧
    (StreamSlice.new ReadDirection.Forward 0 [ev0]
      none).events.is_end_of_stream = false :=
  ⟨by simp,
   located_events_end_of_stream.2.1 ReadDirection.Forward 0 [ev0] 5 (by simp),
   located_events_end_of_stream.2.2 ReadDirection.Forward 0 [ev0] (by simp)⟩

/-- Normal form of an `on_event` step for `EventAppeared` on a confirmed
persistent subscription with an empty buffer: one optional ack package,
one nak package per `NakedEvents` group, and — iff the consumer decided
`Drop` — a final `UnsubscribeFromStream` package with the confirmation
id, the loop stopping in that case. -/
theorem on_event_persistent_shape {σ : Type} (con : Consumer σ)
    (s : State σ) (pid : String) (cid : Uuid) (ev : ResolvedEvent) (rc : Nat)
    (hpid : s.persistent_id = some pid)
    (hcid : s.confirmation_id = some cid)
    (hbuf : s.buffer = []) :
    on_event con s (SubEvent.EventAppeared ev rc)
      = some
        { state := { s with
            consumer := (con.when_event_appeared s.consumer rc ev).consumer,
            buffer := [] },
          pkgs :=
            (if (con.when_event_appeared s.consumer rc ev).acks.isEmpty
             then []
             else [{ cmd := Cmd.PersistentSubscriptionAckEvents,
                     correlation := none,
                     payload := PkgPayload.ackEvents pid
                       ((con.when_event_appeared s.consumer rc ev).acks.map
                         Uuid.as_bytes) }])
            ++ (con.when_event_appeared s.consumer rc ev).naks.map
                 (nakGroupPkg pid)
            ++ (match (con.when_event_appeared s.consumer rc ev).decision with
                | .Continue => []
                | .Drop => [Pkg.new Cmd.UnsubscribeFromStream cid]),
          released := [],
          decision :=
            match (con.when_event_appeared s.consumer rc ev).decision with
            | .Continue => OnEvent.Continue
            | .Drop => OnEvent.Stop } := by
  simp only [on_event, hpid, hbuf, serializeIds_nil]
  rw [foldl_nakStep_nil]
  cases hdec : (con.when_event_appeared s.consumer rc ev).decision with
  | Continue => simp [hdec]
  | Drop => simp [hdec, hcid, List.append_assoc]

/-- Claim C1: on a confirmed persistent subscription with an empty
outbound buffer, an on-event-appeared invocation in which the consumer
pushes a non-empty list of acks makes `on_event` emit exactly one package
whose payload is the `PersistentSubscriptionAckEvents` message — carrying
the subscription's persistent id and the acked event ids serialized as 16
bytes each — and that package is the first one emitted, before the
processing of the event returns. -/
theorem persistent_ack_single_package {σ : Type} (con : Consumer σ)
    (s : State σ) (pid : String) (cid : Uuid) (ev : ResolvedEvent) (rc : Nat)
    (hpid : s.persistent_id = some pid)
    (hcid : s.confirmation_id = some cid)
    (hbuf : s.buffer = [])
    (hacks : (con.when_event_appeared s.consumer rc ev).acks ≠ []) :
    ((on_event con s (SubEvent.EventAppeared ev rc)).map fun r =>
        r.pkgs.head?)
      = some (some
          { cmd := Cmd.PersistentSubscriptionAckEvents, correlation := none,
            payload := PkgPayload.ackEvents pid
              ((con.when_event_appeared s.consumer rc ev).acks.map
                Uuid.as_bytes) }) ∧
    ((on_event con s (SubEvent.EventAppeared ev rc)).map fun r =>
        r.pkgs.countP fun p => p.payload.isAckEvents) = some 1 ∧
    (((con.when_event_appeared s.consumer rc ev).acks.map Uuid.as_bytes).all
        fun bs => bs.length == 16) = true := by
  have hsh := on_event_persistent_shape con s pid cid ev rc hpid hcid hbuf
  rw [hsh]
  have hne : (con.when_event_appeared s.consumer rc ev).acks.isEmpty
      = false := by
    cases hA : (con.when_event_appeared s.consumer rc ev).acks with
    | nil => exact absurd hA hacks
    | cons a t => rfl
  refine ⟨?_, ?_, ?_⟩
  · simp [hne]
  · cases hdec : (con.when_event_appeared s.consumer rc ev).decision <;>
      simp [hne, List.countP_append, List.countP_map, List.countP_cons,
        nakGroupPkg, Pkg.new, PkgPayload.isAckEvents, Function.comp]
  · simp [Uuid.as_bytes]

/-- Claim C1 (witness): a consumer acking the single event id `u1` on the
confirmed persistent subscription `sPers` (group `"g"`). -/
theorem persistent_ack_single_package_witness :
    sPers.persistent_id = some "g" ∧
    sPers.confirmation_id = some u1 ∧
    sPers.buffer = [] ∧
    (conAck.when_event_appeared sPers.consumer 0 ev0).acks ≠ [] ∧
    (((on_event conAck sPers (SubEvent.EventAppeared ev0 0)).map fun r =>
        r.pkgs.head?)
      = some (some
          { cmd := Cmd.PersistentSubscriptionAckEvents, correlation := none,
            payload := PkgPayload.ackEvents "g"
              ((conAck.when_event_appeared sPers.consumer 0 ev0).acks.map
                Uuid.as_bytes) }) ∧
     ((on_event conAck sPers (SubEvent.EventAppeared ev0 0)).map fun r =>
        r.pkgs.countP fun p => p.payload.isAckEvents) = some 1 ∧
     (((conAck.when_event_appeared sPers.consumer 0 ev0).acks.map
         Uuid.as_bytes).all fun bs => bs.length == 16) = true) :=
  ⟨rfl, rfl, rfl, by simp [conAck],
   persistent_ack_single_package conAck sPers "g" u1 ev0 0 rfl rfl rfl
     (by simp [conAck])⟩

/-- Claim C2 (evaluation at the failing input): a consumer that naks the
single event id `u1` with action `Park` and message `"bad"` on the
confirmed persistent subscription `"g"` makes `on_event` emit exactly one
package; its payload is the `PersistentSubscriptionNakEvents` message with
that id, message and action, but its command tag is
`Cmd.PersistentSubscriptionAckEvents` — not the
`PersistentSubscriptionNakEvents` tag the claim requires (the source
passes the Ack command to `Pkg::from_message` in the nak loop). -/
theorem nak_package_uses_ack_command :
    ((on_event conNak sPers (SubEvent.EventAppeared ev0 0)).map
        fun r => (r.pkgs.map Pkg.cmd, r.pkgs.map Pkg.payload))
      = some ([Cmd.PersistentSubscriptionAckEvents],
              [PkgPayload.nakEvents "g" [Uuid.as_bytes u1] "bad"
                 InternalNakAction.Park]) := by
  rfl

/-- Claim C7: on a confirmed subscription, when the consumer's
on-event-appeared decision is `Drop`, the step stops the event loop, the
last package emitted is `UnsubscribeFromStream` carrying the confirmation
id, and consuming the event followed by any further events equals
consuming the event alone — the remaining events are never delivered. -/
theorem drop_sends_unsubscribe {σ : Type} (con : Consumer σ) (s : State σ)
    (cid : Uuid) (ev : ResolvedEvent) (rc : Nat) (rest : List SubEvent)
    (hcid : s.confirmation_id = some cid)
    (hdrop : (consumerReply con s ev rc).decision = OnEventAppeared.Drop) :
    ((on_event con s (SubEvent.EventAppeared ev rc)).map
        OnEventResult.decision) = some OnEvent.Stop ∧
    ((on_event con s (SubEvent.EventAppeared ev rc)).map
        fun r => r.pkgs.getLast?)
      = some (some (Pkg.new Cmd.UnsubscribeFromStream cid)) ∧
    consume con s (SubEvent.EventAppeared ev rc :: rest)
      = (on_event con s (SubEvent.EventAppeared ev rc)).map
          fun r => (r.state, r.pkgs, r.released) := by
  have key : ∃ r, on_event con s (SubEvent.EventAppeared ev rc) = some r ∧
      r.decision = OnEvent.Stop ∧
      r.pkgs.getLast? = some (Pkg.new Cmd.UnsubscribeFromStream cid) := by
    cases hp : s.persistent_id with
    | some pid =>
      simp only [consumerReply, hp] at hdrop
      simp only [on_event, hp, hdrop, hcid]
      exact ⟨_, rfl, rfl, by simp⟩
    | none =>
      simp only [consumerReply, hp] at hdrop
      simp only [on_event, hp, hdrop, hcid]
      exact ⟨_, rfl, rfl, by simp⟩
  obtain ⟨r, hOE, hdec2, hlast⟩ := key
  refine ⟨?_, ?_, ?_⟩
  · rw [hOE]
    simp [hdec2]
  · rw [hOE]
    simp [hlast]
  · simp [consume, hOE, hdec2]

/-- Claim C7 (witness): a dropping consumer on the confirmed subscription
`sConf`, with one further event pending that is never delivered. -/
theorem drop_sends_unsubscribe_witness :
    sConf.confirmation_id = some u1 ∧
    (consumerReply conDrop sConf ev0 0).decision = OnEventAppeared.Drop ∧
    (((on_event conDrop sConf (SubEvent.EventAppeared ev0 0)).map
        OnEventResult.decision) = some OnEvent.Stop ∧
     ((on_event conDrop sConf (SubEvent.EventAppeared ev0 0)).map
        fun r => r.pkgs.getLast?)
       = some (some (Pkg.new Cmd.UnsubscribeFromStream u1)) ∧
     consume conDrop sConf
         (SubEvent.EventAppeared ev0 0 :: [SubEvent.Dropped])
       = (on_event conDrop sConf (SubEvent.EventAppeared ev0 0)).map
           fun r => (r.state, r.pkgs, r.released)) :=
  ⟨rfl, rfl,
   drop_sends_unsubscribe conDrop sConf u1 ev0 0 [SubEvent.Dropped] rfl rfl⟩

/-- Conservation of confirmation-wait tokens over one `on_event` step:
the tokens released plus the tokens still pending equal the tokens that
were pending plus the token registered by the event (if any) — no step
answers a waiter twice or loses one. -/
theorem released_conservation_step {σ : Type} (con : Consumer σ)
    (s : State σ) (e : SubEvent) (r : OnEventResult σ) (tok : Nat)
    (h : on_event con s e = some r) :
    r.released.count tok + r.state.confirmation_requests.count tok
      = s.confirmation_requests.count tok + countRequests tok [e] := by
  cases e with
  | Confirmed id lcp len pid =>
    rw [on_event] at h
    cases h
    simp [countRequests]
  | EventAppeared ev rc =>
    rw [on_event] at h
    have hreq : countRequests tok [SubEvent.EventAppeared ev rc] = 0 := by
      simp [countRequests]
    rw [hreq]
    cases hp : s.persistent_id with
    | some pid =>
      simp only [hp] at h
      cases hdec : (con.when_event_appeared s.consumer rc ev).decision with
      | Continue =>
        simp only [hdec] at h
        cases h
        simp
      | Drop =>
        simp only [hdec] at h
        cases hc : s.confirmation_id with
        | none =>
          simp only [hc] at h
          exact Option.noConfusion h
        | some cid =>
          simp only [hc] at h
          cases h
          simp
    | none =>
      simp only [hp] at h
      cases hdec : (con.when_event_appeared s.consumer 0 ev).decision with
      | Continue =>
        simp only [hdec] at h
        cases h
        simp
      | Drop =>
        simp only [hdec] at h
        cases hc : s.confirmation_id with
        | none =>
          simp only [hc] at h
          exact Option.noConfusion h
        | some cid =>
          simp only [hc] at h
          cases h
          simp
  | Dropped =>
    rw [on_event] at h
    cases h
    simp [countRequests]
  | HasBeenConfirmed req =>
    rw [on_event] at h
    cases hc : s.confirmation_id with
    | some cid =>
      simp only [hc] at h
      cases h
      by_cases he : req = tok <;>
        simp [countRequests, List.count_cons, List.countP_cons, he]
      omega
    | none =>
      simp only [hc] at h
      cases h
      by_cases he : req = tok <;>
        simp [countRequests, List.count_append, List.count_cons,
          List.countP_cons, he]

/-- Conservation of confirmation-wait tokens over a whole consumed trace:
each token is answered at most once per registration (with equality except
when a `Stop` decision truncates the trace before a registration is
reached). -/
theorem released_conservation {σ : Type} (con : Consumer σ) :
    ∀ (evs : List SubEvent) (s : State σ)
      (res : State σ × List Pkg × List Nat) (tok : Nat),
      consume con s evs = some res →
      res.2.2.count tok + res.1.confirmation_requests.count tok
        ≤ s.confirmation_requests.count tok + countRequests tok evs := by
  intro evs
  induction evs with
  | nil =>
    intro s res tok h
    rw [consume] at h
    cases h
    simp [countRequests]
  | cons e rest ih =>
    intro s res tok h
    have hsplit : countRequests tok (e :: rest)
        = countRequests tok [e] + countRequests tok rest := by
      simp [countRequests, List.countP_cons]
      omega
    rw [consume] at h
    cases ho : on_event con s e with
    | none =>
      simp only [ho] at h
      exact Option.noConfusion h
    | some r =>
      simp only [ho] at h
      have hstep := released_conservation_step con s e r tok ho
      cases hd : r.decision with
      | Stop =>
        simp only [hd] at h
        cases h
        rw [hsplit]
        dsimp only
        omega
      | Continue =>
        simp only [hd] at h
        cases hc : consume con r.state rest with
        | none =>
          simp only [hc] at h
          exact Option.noConfusion h
        | some res2 =>
          simp only [hc] at h
          obtain ⟨s2, pkgs2, rel2⟩ := res2
          cases h
          have hrec := ih r.state (s2, pkgs2, rel2) tok hc
          simp only at hrec
          rw [hsplit]
          simp only [List.count_append]
          omega

/-- Claim C8: a confirmation-wait request arriving on an already-confirmed
subscription is released immediately with the state unchanged; on an
unconfirmed one it is appended to the pending list and not released;
processing `Confirmed` or `Dropped` releases exactly the pending requests
and empties the pending list; and over any consumed trace each token is
released at most once per registration. -/
theorem confirmation_wait_exactly_once {σ : Type} (con : Consumer σ)
    (s : State σ) (tok : Nat) :
    (s.confirmation_id.isSome = true →
       on_event con s (SubEvent.HasBeenConfirmed tok)
         = some { state := s, pkgs := [], released := [tok],
                  decision := OnEvent.Continue }) ∧
    (s.confirmation_id = none →
       on_event con s (SubEvent.HasBeenConfirmed tok)
         = some { state := { s with confirmation_requests :=
                    s.confirmation_requests ++ [tok] },
                  pkgs := [], released := [], decision := OnEvent.Continue }) ∧
    (∀ (id : Uuid) (lcp len : Int) (pid : Option String),
       (on_event con s (SubEvent.Confirmed id lcp len pid)).map
           (fun r => (r.released, r.state.confirmation_requests))
         = some (s.confirmation_requests, [])) ∧
    ((on_event con s SubEvent.Dropped).map
        (fun r => (r.released, r.state.confirmation_requests))
      = some (s.confirmation_requests, [])) ∧
    (∀ (evs : List SubEvent) (res : State σ × List Pkg × List Nat),
       consume con s evs = some res →
       res.2.2.count tok + res.1.confirmation_requests.count tok
         ≤ s.confirmation_requests.count tok + countRequests tok evs) := by
  refine ⟨?_, ?_, ?_, ?_,
    fun evs res h => released_conservation con evs s res tok h⟩
  · intro h
    cases hc : s.confirmation_id with
    | none =>
      rw [hc] at h
      simp at h
    | some cid => simp [on_event, hc]
  · intro h
    simp [on_event, h]
  · intro id lcp len pid
    simp [on_event]
  · simp [on_event]

/-- Claim C8 (witness): immediate release on the confirmed state `sConf`;
pending registration then release by `Dropped` from the initial state. -/
theorem confirmation_wait_exactly_once_witness :
    sConf.confirmation_id.isSome = true ∧
    on_event conAck sConf (SubEvent.HasBeenConfirmed 7)
      = some { state := sConf, pkgs := [], released := [7],
               decision := OnEvent.Continue } ∧
    (State.new () : State Unit).confirmation_id = none ∧
    on_event conAck (State.new ()) (SubEvent.HasBeenConfirmed 7)
      = some { state := { State.new () with confirmation_requests :=
                 (State.new () : State Unit).confirmation_requests ++ [7] },
               pkgs := [], released := [], decision := OnEvent.Continue } ∧
    consume conAck (State.new ())
        [SubEvent.HasBeenConfirmed 7, SubEvent.Dropped]
      = some (State.new (), [], [7]) ∧
    ([7] : List Nat).count 7
        + (State.new () : State Unit).confirmation_requests.count 7
      ≤ (State.new () : State Unit).confirmation_requests.count 7
        + countRequests 7 [SubEvent.HasBeenConfirmed 7, SubEvent.Dropped] :=
  ⟨rfl,
   (confirmation_wait_exactly_once conAck sConf 7).1 rfl,
   rfl,
   (confirmation_wait_exactly_once conAck (State.new ()) 7).2.1 rfl,
   rfl,
   (confirmation_wait_exactly_once conAck (State.new ()) 7).2.2.2.2
     [SubEvent.HasBeenConfirmed 7, SubEvent.Dropped]
     (State.new (), [], [7]) rfl⟩

/-- Exact characterization of the one panic in the subscription handler:
`on_event` aborts iff the subscription is unconfirmed and the event is an
`EventAppeared` whose consumer decision is `Drop` (the
`confirmation_id.expect` in the drop path). -/
theorem on_event_none_iff_unconfirmed_drop {σ : Type} (con : Consumer σ)
    (s : State σ) (e : SubEvent) :
    on_event con s e = none ↔
      (s.confirmation_id = none ∧ ∃ ev rc,
         e = SubEvent.EventAppeared ev rc ∧
         (consumerReply con s ev rc).decision = OnEventAppeared.Drop) := by
  cases e with
  | Confirmed id lcp len pid => simp [on_event]
  | Dropped => simp [on_event]
  | HasBeenConfirmed req =>
    cases hc : s.confirmation_id <;> simp [on_event, hc]
  | EventAppeared ev rc =>
    cases hp : s.persistent_id with
    | some pid =>
      cases hdec : (con.when_event_appeared s.consumer rc ev).decision with
      | Continue => simp [on_event, hp, hdec, consumerReply]
      | Drop =>
        cases hcc : s.confirmation_id with
        | some cid => simp [on_event, hp, hdec, hcc, consumerReply]
        | none =>
          simp [on_event, hp, hdec, hcc, consumerReply]
          exact ⟨ev, rc, ⟨rfl, rfl⟩, hdec⟩
    | none =>
      cases hdec : (con.when_event_appeared s.consumer 0 ev).decision with
      | Continue => simp [on_event, hp, hdec, consumerReply]
      | Drop =>
        cases hcc : s.confirmation_id with
        | some cid => simp [on_event, hp, hdec, hcc, consumerReply]
        | none => simp [on_event, hp, hdec, hcc, consumerReply]

/-- A successful `on_event` step never clears the confirmation id. -/
theorem on_event_keeps_confirmation {σ : Type} (con : Consumer σ)
    (s : State σ) (e : SubEvent) (r : OnEventResult σ)
    (h : on_event con s e = some r)
    (hc : s.confirmation_id.isSome = true) :
    r.state.confirmation_id.isSome = true := by
  cases e with
  | Confirmed id lcp len pid =>
    rw [on_event] at h
    cases h
    rfl
  | Dropped =>
    rw [on_event] at h
    cases h
    exact hc
  | HasBeenConfirmed req =>
    rw [on_event] at h
    cases hcc : s.confirmation_id with
    | some cid =>
      simp only [hcc] at h
      cases h
      exact hc
    | none =>
      rw [hcc] at hc
      exact absurd hc (by simp)
  | EventAppeared ev rc =>
    rw [on_event] at h
    cases hp : s.persistent_id with
    | some pid =>
      simp only [hp] at h
      cases hdec : (con.when_event_appeared s.consumer rc ev).decision with
      | Continue =>
        simp only [hdec] at h
        cases h
        exact hc
      | Drop =>
        cases hcc : s.confirmation_id with
        | none =>
          rw [hcc] at hc
          exact absurd hc (by simp)
        | some cid =>
          simp only [hdec, hcc] at h
          cases h
          rfl
    | none =>
      simp only [hp] at h
      cases hdec : (con.when_event_appeared s.consumer 0 ev).decision with
      | Continue =>
        simp only [hdec] at h
        cases h
        exact hc
      | Drop =>
        cases hcc : s.confirmation_id with
        | none =>
          rw [hcc] at hc
          exact absurd hc (by simp)
        | some cid =>
          simp only [hdec, hcc] at h
          cases h
          rfl

/-- Once the subscription is confirmed, consuming any event trace never
aborts. -/
theorem consume_no_panic_of_confirmed {σ : Type} (con : Consumer σ) :
    ∀ (evs : List SubEvent) (s : State σ),
      s.confirmation_id.isSome = true → consume con s evs ≠ none := by
  intro evs
  induction evs with
  | nil =>
    intro s hc h
    rw [consume] at h
    exact Option.noConfusion h
  | cons e rest ih =>
    intro s hc h
    rw [consume] at h
    cases ho : on_event con s e with
    | none =>
      have := (on_event_none_iff_unconfirmed_drop con s e).1 ho
      rw [this.1] at hc
      exact absurd hc (by simp)
    | some r =>
      simp only [ho] at h
      cases hd : r.decision with
      | Stop =>
        simp only [hd] at h
        exact Option.noConfusion h
      | Continue =>
        simp only [hd] at h
        cases hcr : consume con r.state rest with
        | none => exact ih r.state (on_event_keeps_confirmation con s e r ho hc) hcr
        | some res2 =>
          rw [hcr] at h
          obtain ⟨s2, pkgs2, rel2⟩ := res2
          exact Option.noConfusion h

/-- Claim C9 (counterexample): an `EventAppeared` whose consumer decision
is `Drop`, processed before any `Confirmed`, reaches the
`confirmation_id.expect` panic — modelled as `consume` returning `none`. -/
theorem unconfirmed_drop_aborts :
    consume conDrop (State.new ()) [SubEvent.EventAppeared ev0 0]
      = none := by
  rfl

/-- Claim C9 (amended): the subscription handler can abort only in one
situation — an `EventAppeared` whose consumer decision is `Drop` processed
while the subscription is unconfirmed (the code comments this path as
impossible); in particular once the subscription is confirmed, no panic is
reachable for any event sequence and any consumer. -/
theorem on_event_panic_only_unconfirmed_drop {σ : Type} (con : Consumer σ)
    (s : State σ) :
    (∀ e, on_event con s e = none ↔
       (s.confirmation_id = none ∧ ∃ ev rc,
          e = SubEvent.EventAppeared ev rc ∧
          (consumerReply con s ev rc).decision = OnEventAppeared.Drop)) ∧
    (s.confirmation_id.isSome = true →
       ∀ evs, consume con s evs ≠ none) :=
  ⟨fun e => on_event_none_iff_unconfirmed_drop con s e,
   fun hc evs => consume_no_panic_of_confirmed con evs s hc⟩

/-- Claim C9 (witness for the amended theorem): on the confirmed state
`sConf`, even a dropping consumer never reaches the panic. -/
theorem on_event_panic_only_unconfirmed_drop_witness :
    sConf.confirmation_id.isSome = true ∧
    consume conDrop sConf [SubEvent.EventAppeared ev0 0] ≠ none :=
  ⟨rfl, (on_event_panic_only_unconfirmed_drop conDrop sConf).2 rfl
    [SubEvent.EventAppeared ev0 0]⟩

end ESDB
